import Mathlib

/-
Verification of the OPC UA gateway core (opcua_connector.py and the MQTT
publisher of all_in_one_gateway.py) against its natural-language
specification.  The Python code is shallowly embedded: each method becomes a
pure Lean function over an explicit state, with library calls that can raise
modelled by oracle records of booleans and result maps, and try/except
modelled by Except together with explicit handler branches.  Time is an
abstract clock tick (Nat); a Python datetime.datetime object is `TimeVal.raw
tick` and the ISO-8601 string produced by its isoformat() method is
`TimeVal.iso tick`.
-/

set_option maxHeartbeats 1000000

namespace OpcGateway

/-- Timestamp values as they occur dynamically in the Python code: either a
raw datetime.datetime object or the ISO-8601 string obtained by calling
isoformat() on one.  Both carry the clock tick at which
datetime.datetime.now() was evaluated. -/
inductive TimeVal where
  | raw (tick : Nat)
  | iso (tick : Nat)
deriving DecidableEq, Repr

/-- One entry of `nodes_to_monitor`, built in OpcUaConnector.__init__ from
the node{i}_id / node{i}_name / node{i}_unit keys of the MONITORING config
section (unit defaults to the empty string when absent). -/
structure MonitoredPoint where
  id : String
  name : String
  unit : String
deriving DecidableEq, Repr

/-- The dict stored into `latest_values` by both write paths: exactly the
three keys value, unit and timestamp. -/
structure ValueRecord (V : Type) where
  value : V
  unit : String
  timestamp : TimeVal
deriving DecidableEq, Repr

/-- A data-change delivery from the OPC UA client library: the node id
reported by the server, the delivered value, and the clock tick at which the
notification is received and handled. -/
structure Notification (V : Type) where
  nodeId : String
  val : V
  time : Nat
deriving DecidableEq, Repr

/-- The argument tuple (name, value, unit, timestamp) passed to every
registered value callback by _notify_callbacks; the timestamp argument is
the raw datetime.datetime.now() object, not an ISO string. -/
structure Dispatch (V : Type) where
  name : String
  value : V
  unit : String
  timestamp : TimeVal
deriving DecidableEq, Repr

/-- The `latest_values` dict, read by name. -/
def Cache (V : Type) : Type := String → Option (ValueRecord V)

/-- Assignment `self.latest_values[name] = record`. -/
def Cache.set {V : Type} (c : Cache V) (k : String) (r : ValueRecord V) : Cache V :=
  fun q => if q = k then some r else c q

/-- The empty dict `latest_values = {}` set in __init__. -/
def Cache.empty (V : Type) : Cache V := fun _ => none

/-- The mutable fields of an OpcUaConnector instance that the lifecycle
methods read and write.  `client` and `subscription` are opaque library
handles, kept only as present/absent. -/
structure EngineState (V : Type) where
  nodes_to_monitor : List MonitoredPoint
  client : Option Unit
  subscription : Option Unit
  handles : List Nat
  connected : Bool
  latest_values : Cache V

/-- Lookup `next((n for n in self.connector.nodes_to_monitor if n["id"] == node_id), None)`
performed by SubHandler.datachange_notification: the first configured point
whose id equals the reported node id. -/
def findPoint (points : List MonitoredPoint) (nid : String) : Option MonitoredPoint :=
  points.find? (fun n => n.id == nid)

/-- SubHandler.datachange_notification, acting on the connector's
latest_values and producing the fan-out event it triggers (empty when the
node id matches no configured point, in which case the delivery is only
logged).  The stored timestamp is datetime.datetime.now().isoformat() taken
when the notification is handled; the dispatched timestamp is the raw
datetime object taken in _notify_callbacks at the same tick. -/
def datachange_notification {V : Type} (points : List MonitoredPoint) (c : Cache V)
    (n : Notification V) : Cache V × List (Dispatch V) :=
  match findPoint points n.nodeId with
  | some p =>
      (Cache.set c p.name ⟨n.val, p.unit, TimeVal.iso n.time⟩,
        [⟨p.name, n.val, p.unit, TimeVal.raw n.time⟩])
  | none => (c, [])

/-- Handling of a sequence of notifications, one at a time in delivery order
(the OPC UA client invokes the handler serially). -/
def processNotifications {V : Type} (points : List MonitoredPoint) (c : Cache V) :
    List (Notification V) → Cache V × List (Dispatch V)
  | [] => (c, [])
  | n :: ns =>
      let r := datachange_notification points c n
      let rest := processNotifications points r.1 ns
      (rest.1, r.2 ++ rest.2)

/-- The last notification of the sequence that resolves (by first exact id
match) to the point P; none when no notification of the sequence matched P. -/
def lastMatchFor {V : Type} (points : List MonitoredPoint) (P : MonitoredPoint) :
    List (Notification V) → Option (Notification V)
  | [] => none
  | n :: ns =>
      match lastMatchFor points P ns with
      | some m => some m
      | none => if findPoint points n.nodeId = some P then some n else none

/-- Which cleanup calls of OpcUaConnector.disconnect raise: unsubscribing a
given handle, deleting the subscription, and closing the client session. -/
structure FailSpec where
  unsubFails : Nat → Bool
  deleteFails : Bool
  clientDisconnectFails : Bool

/-- Body of the first try block of disconnect (entered when
self.subscription is truthy): unsubscribe every handle, then clear handles,
then delete the subscription and clear it.  An error result carries the
state at the point the exception was raised: the loop itself mutates
nothing, so a failing unsubscribe leaves handles and subscription as they
were; a failing delete happens after handles were cleared. -/
def cleanupSubscriptionBody {V : Type} (f : FailSpec) (s : EngineState V) :
    Except (EngineState V) (EngineState V) :=
  if s.handles.any f.unsubFails then Except.error s
  else
    let s1 := { s with handles := ([] : List Nat) }
    if f.deleteFails then Except.error s1
    else Except.ok { s1 with subscription := none }

/-- Body of the second try block of disconnect: self.client.disconnect(),
which mutates no connector state of its own. -/
def closeClientBody {V : Type} (f : FailSpec) (s : EngineState V) :
    Except (EngineState V) (EngineState V) :=
  if f.clientDisconnectFails then Except.error s else Except.ok s

/-- An except clause that catches the exception and continues with the state
reached at the raise point (the handler only logs). -/
def catchE {V : Type} (x : Except (EngineState V) (EngineState V)) : EngineState V :=
  match x with
  | Except.ok t => t
  | Except.error t => t

/-- The first block of disconnect: the subscription cleanup try/except,
entered only when self.subscription is truthy. -/
def afterCleanup {V : Type} (f : FailSpec) (s : EngineState V) : EngineState V :=
  if s.subscription.isSome then catchE (cleanupSubscriptionBody f s) else s

/-- OpcUaConnector.disconnect.  Every exception of the two bodies is caught
and logged, so the method itself never raises and is total; the finally
clause of the client block clears client and connected unconditionally, but
only runs when self.client was truthy. -/
def disconnect {V : Type} (f : FailSpec) (s : EngineState V) : EngineState V :=
  let s1 := afterCleanup f s
  if s1.client.isSome then
    { catchE (closeClientBody f s1) with client := none, connected := false }
  else s1

/-- Behaviour of the library calls made by subscribe_to_nodes, keyed by node
id: whether creating the subscription fails, whether get_node or
subscribe_data_change fails for a node, the result of the initial
node.get_value() read (none meaning the read raises), the handle returned
for a node, and the clock tick of the initial reads. -/
structure SubOracle (V : Type) where
  createSubFails : Bool
  itemFails : String → Bool
  readValue : String → Option V
  handleOf : String → Nat
  time : Nat

/-- Result of subscribe_to_nodes: the connector state afterwards, the
returned boolean, and the fan-out events emitted while seeding. -/
structure SubscribeResult (V : Type) where
  state : EngineState V
  success : Bool
  dispatches : List (Dispatch V)

/-- The seeding performed for one point after a successful initial read
(lines storing into latest_values and calling _notify_callbacks): the cache
write and the dispatched event. -/
def seedInitialValue {V : Type} (p : MonitoredPoint) (v : V) (t : Nat) (c : Cache V) :
    Cache V × Dispatch V :=
  (Cache.set c p.name ⟨v, p.unit, TimeVal.iso t⟩, ⟨p.name, v, p.unit, TimeVal.raw t⟩)

/-- One iteration of the per-node loop of subscribe_to_nodes.  The outer
try catches get_node / subscribe_data_change failures and skips the node;
the inner try catches a failing initial read after the handle was already
appended. -/
def subscribeStep {V : Type} (o : SubOracle V) (acc : EngineState V × List (Dispatch V))
    (p : MonitoredPoint) : EngineState V × List (Dispatch V) :=
  let st := acc.1
  if o.itemFails p.id then acc
  else
    let st1 := { st with handles := st.handles ++ [o.handleOf p.id] }
    match o.readValue p.id with
    | none => (st1, acc.2)
    | some v =>
        let r := seedInitialValue p v o.time st1.latest_values
        ({ st1 with latest_values := r.1 }, acc.2 ++ [r.2])

/-- OpcUaConnector.subscribe_to_nodes: refuses when not connected or the
client is gone; a failing create_subscription is caught and returns False;
otherwise the subscription is stored, handles reset, every configured node
processed in order, and True returned. -/
def subscribe_to_nodes {V : Type} (o : SubOracle V) (s : EngineState V) :
    SubscribeResult V :=
  if !s.connected || s.client.isNone then ⟨s, false, []⟩
  else if o.createSubFails then ⟨s, false, []⟩
  else
    let s0 : EngineState V := { s with subscription := some (), handles := [] }
    let r := s.nodes_to_monitor.foldl (subscribeStep o) (s0, [])
    ⟨r.1, true, r.2⟩

/-- Contents of the two credential files on disk; none means the file does
not exist.  File contents are abstracted to Nat. -/
structure Disk where
  certFile : Option Nat
  keyFile : Option Nat
deriving DecidableEq, Repr

/-- Behaviour of the generation path of generate_certificates: whether any
of its I/O or cryptographic steps raises, and the fresh key and certificate
bytes produced otherwise. -/
structure CryptoOracle where
  genFails : Bool
  newKey : Nat
  newCert : Nat
deriving DecidableEq, Repr

/-- Absolute path of the certificate file, fixed by the code relative to the
working directory. -/
def certPath : String := "certificates/certificate.der"

/-- Absolute path of the private key file. -/
def keyPath : String := "certificates/private_key.pem"

/-- OpcUaConnector.generate_certificates.  When both files exist their paths
are returned with the disk untouched; otherwise a fresh key and self-signed
certificate are generated and written (the error branch models the logged
and re-raised exception of the except clause; on failure no claim observes
the partially written disk, which is returned unchanged here). -/
def generate_certificates (o : CryptoOracle) (d : Disk) :
    Except Unit (Disk × String × String) :=
  if d.certFile.isSome && d.keyFile.isSome then
    Except.ok (d, certPath, keyPath)
  else if o.genFails then Except.error ()
  else
    Except.ok ({ certFile := some o.newCert, keyFile := some o.newKey }, certPath, keyPath)

/-- Behaviour of the steps of OpcUaConnector.connect: the provisioning
oracle, and whether the Client constructor, set_security_string, or the
session-opening client.connect() call raises. -/
structure ConnectOracle where
  crypto : CryptoOracle
  clientCtorFails : Bool
  setSecurityFails : Bool
  sessionOpenFails : Bool

/-- Result of connect: state and disk afterwards, the returned boolean, and
whether the session-opening client.connect() call was ever attempted. -/
structure ConnectResult (V : Type) where
  state : EngineState V
  disk : Disk
  success : Bool
  sessionAttempted : Bool

/-- OpcUaConnector.connect.  Each failing step raises into the except
clause, which logs, calls self.disconnect() and returns False.  The client
field is assigned only once the constructor succeeded; connected is set only
after client.connect() succeeded. -/
def connect {V : Type} (o : ConnectOracle) (cleanup : FailSpec) (d : Disk)
    (s : EngineState V) : ConnectResult V :=
  match generate_certificates o.crypto d with
  | Except.error _ => ⟨disconnect cleanup s, d, false, false⟩
  | Except.ok (d1, _cp, _kp) =>
    if o.clientCtorFails then ⟨disconnect cleanup s, d1, false, false⟩
    else if o.setSecurityFails then
      ⟨disconnect cleanup { s with client := some () }, d1, false, false⟩
    else if o.sessionOpenFails then
      ⟨disconnect cleanup { s with client := some () }, d1, false, true⟩
    else ⟨{ s with client := some (), connected := true }, d1, true, true⟩

/-- A registered sink callback, abstracted by its raising behaviour: true
means the call raises on these arguments. -/
def Sink (V : Type) : Type := Dispatch V → Bool

/-- One callback(name, value, unit, timestamp) invocation, as a raising or
returning call. -/
def callSink {V : Type} (cb : Sink V) (a : Dispatch V) : Except Unit Unit :=
  if cb a then Except.error () else Except.ok ()

/-- The for-loop of _notify_callbacks: each callback is invoked with the
same argument tuple; the try/except inside the loop catches and logs a
raising callback and the loop continues with the next one.  The result logs,
positionally per registered sink, the arguments delivered to it and whether
its invocation returned normally. -/
def runSinks {V : Type} (a : Dispatch V) : List (Sink V) → List (Dispatch V × Bool)
  | [] => []
  | cb :: rest =>
      let r := callSink cb a
      (a, r.isOk) :: runSinks a rest

/-- OpcUaConnector._notify_callbacks: stamps the raw datetime.datetime.now()
object once, then runs the callback loop. -/
def notify_callbacks {V : Type} (sinks : List (Sink V)) (name : String) (v : V)
    (u : String) (t : Nat) : List (Dispatch V × Bool) :=
  runSinks ⟨name, v, u, TimeVal.raw t⟩ sinks

/-- A value change arriving at the dispatcher during a test window. -/
structure NotifyEvent (V : Type) where
  name : String
  value : V
  unit : String
  time : Nat
deriving DecidableEq, Repr

/-- Dispatch of a window of value changes, one _notify_callbacks run per
event. -/
def dispatchWindow {V : Type} (sinks : List (Sink V)) (events : List (NotifyEvent V)) :
    List (List (Dispatch V × Bool)) :=
  events.map (fun e => notify_callbacks sinks e.name e.value e.unit e.time)

/-- An MQTT message as produced by MqttPublisher._publish_values: topic is
the configured prefix followed by the point name, payload the json.dumps of
the record (kept as the record itself, json.dumps being injective on these
dicts), published with qos=1. -/
structure MqttMsg (V : Type) where
  topic : String
  payload : ValueRecord V
  qos : Nat
deriving DecidableEq, Repr

/-- MqttPublisher._publish_values: one message per entry of the sink's local
latest_values map (an association list in dict insertion order). -/
def publish_values {V : Type} (pfx : String) (vals : List (String × ValueRecord V)) :
    List (MqttMsg V) :=
  vals.map (fun e => ⟨pfx ++ e.1, e.2, 1⟩)

/-- MqttPublisher._publish_loop over a time window of T ticks, with
keep_running true throughout: each cycle publishes the current snapshot when
connected (an exception would be caught by the try inside the loop; in this
model publishing does not raise), then sleeps I ticks; the loop body itself
takes no time.  `env k` is the contents of the sink's local map at the k-th
cycle, and the result lists the batch published at each cycle. -/
def publish_loop {V : Type} (pfx : String) (connected : Bool)
    (env : Nat → List (String × ValueRecord V)) (I : Nat) :
    Nat → Nat → List (List (MqttMsg V))
  | k, T =>
      (if connected then [publish_values pfx (env k)] else []) ++
        (if _h : 0 < I ∧ I ≤ T then publish_loop pfx connected env I (k + 1) (T - I)
         else [])
termination_by _ T => T
decreasing_by simp_wf; omega

/-- One node{i}_* group of the MONITORING config section: id, name, and the
optional unit key. -/
structure ConfigEntry where
  id : String
  name : String
  unit : Option String
deriving DecidableEq, Repr

/-- The while-loop of OpcUaConnector.__init__ that builds nodes_to_monitor:
starting at i, as long as node{i}_id is present, append the point with unit
defaulted to the empty string; fuel bounds the number of iterations (the
config section is finite). -/
def parseNodes (cfg : Nat → Option ConfigEntry) : Nat → Nat → List MonitoredPoint
  | _, 0 => []
  | i, fuel + 1 =>
      match cfg i with
      | none => []
      | some e => ⟨e.id, e.name, e.unit.getD ""⟩ :: parseNodes cfg (i + 1) fuel

/-- The invariant claimed of latest_values: every stored record carries the
configured unit of a config entry bearing its key as name (the empty string
when the unit key was absent), and its timestamp is an isoformat() string,
never a raw datetime object. -/
def cacheInvCfg {V : Type} (cfg : Nat → Option ConfigEntry) (c : Cache V) : Prop :=
  ∀ name r, c name = some r →
    ((∃ i e, cfg i = some e ∧ e.name = name ∧ r.unit = e.unit.getD "") ∧
      ∃ t, r.timestamp = TimeVal.iso t)

/-- Failure of at least one of the sequential steps of connect: provisioning
(the credential files are not both present and the generation path fails),
the Client constructor, set_security_string, or the session-opening
client.connect() call. -/
def connectStepFails (o : ConnectOracle) (d : Disk) : Prop :=
  ((d.certFile.isSome && d.keyFile.isSome) = false ∧ o.crypto.genFails = true) ∨
    o.clientCtorFails = true ∨ o.setSecurityFails = true ∨ o.sessionOpenFails = true

/-- Concrete fixtures used by the witnesses. -/
def exA : MonitoredPoint := ⟨"ns=2;i=1", "A", "C"⟩

def exB : MonitoredPoint := ⟨"ns=2;i=2", "B", "%"⟩

def exC : MonitoredPoint := ⟨"ns=2;i=3", "C", ""⟩

def exPoints : List MonitoredPoint := [exA, exB, exC]

def exNs : List (Notification Nat) :=
  [⟨"ns=2;i=1", 21, 1⟩, ⟨"ns=2;i=2", 60, 2⟩, ⟨"ns=2;i=1", 22, 3⟩, ⟨"ns=9;i=9", 99, 4⟩]

def exNoFail : FailSpec := ⟨fun _ => false, false, false⟩

def exUnsubFail : FailSpec := ⟨fun _ => true, false, false⟩

def exActiveState : EngineState Nat :=
  ⟨exPoints, some (), some (), [0], true, Cache.empty Nat⟩

def exFreshState : EngineState Nat :=
  ⟨exPoints, none, none, [], false, Cache.empty Nat⟩

def exConnectedState : EngineState Nat :=
  ⟨exPoints, some (), none, [], true, Cache.empty Nat⟩

def exSubOracle : SubOracle Nat :=
  ⟨false, fun nid => nid == "ns=2;i=2",
    fun nid => if nid == "ns=2;i=2" then none else some 7, fun _ => 5, 9⟩

def exDiskBoth : Disk := ⟨some 1, some 2⟩

def exDiskEmpty : Disk := ⟨none, none⟩

def exCrypto : CryptoOracle := ⟨false, 10, 11⟩

def exCryptoFail : CryptoOracle := ⟨true, 10, 11⟩

def exConnectOracleFail : ConnectOracle := ⟨exCryptoFail, false, false, false⟩

def exSinksA : List (Sink Nat) := [fun _ => true, fun _ => false]

def exSinksB : List (Sink Nat) := [fun _ => false, fun _ => false]

def exEvents : List (NotifyEvent Nat) := [⟨"A", 21, "C", 1⟩, ⟨"A", 22, "C", 2⟩]

def exEnv : Nat → List (String × ValueRecord Nat) :=
  fun _ => [("A", ⟨21, "C", TimeVal.iso 1⟩)]

def exCfg : Nat → Option ConfigEntry :=
  fun i => if i = 1 then some ⟨"ns=2;i=1", "A", some "C"⟩ else none

def exCfgState : EngineState Nat :=
  ⟨parseNodes exCfg 1 3, some (), none, [], true, Cache.empty Nat⟩

/-
Theorems.
-/

/-- Two configured points with the same name are equal when the configured
names are pairwise distinct. -/
lemma name_eq_of_mem {points : List MonitoredPoint} {p q : MonitoredPoint}
    (hnd : (points.map MonitoredPoint.name).Nodup)
    (hp : p ∈ points) (hq : q ∈ points) (h : p.name = q.name) : p = q :=
  List.inj_on_of_nodup_map hnd hp hq h

/-- Lookup in latest_values after a sequence of notifications: the record of
the last notification matched to P, or the initial record when none
matched. -/
lemma processNotifications_lookup {V : Type} (points : List MonitoredPoint)
    (P : MonitoredPoint) (hnd : (points.map MonitoredPoint.name).Nodup)
    (hP : P ∈ points) (ns : List (Notification V)) :
    ∀ c : Cache V,
      (processNotifications points c ns).1 P.name =
        match lastMatchFor points P ns with
        | some m => some ⟨m.val, P.unit, TimeVal.iso m.time⟩
        | none => c P.name := by
  induction ns with
  | nil => intro c; rfl
  | cons n ns ih =>
      intro c
      simp only [processNotifications, lastMatchFor]
      rw [ih]
      cases hf : findPoint points n.nodeId with
      | none =>
          cases hm : lastMatchFor (V := V) points P ns with
          | some m => simp [hm, datachange_notification, hf]
          | none => simp [hm, datachange_notification, hf]
      | some q =>
          have hqmem : q ∈ points := List.mem_of_find?_eq_some hf
          by_cases hq : q = P
          · cases hm : lastMatchFor (V := V) points P ns with
            | some m => simp [hm]
            | none =>
                subst hq
                simp [hm, hf, datachange_notification, Cache.set]
          · have hname : ¬ P.name = q.name := fun h =>
              hq (name_eq_of_mem hnd hqmem hP h.symm)
            cases hm : lastMatchFor (V := V) points P ns with
            | some m => simp [hm]
            | none => simp [hm, hq, datachange_notification, hf, Cache.set, hname]

/-- C1: for every sequence of notifications and every monitored point P
(configured names being distinct), the cache record for P after the
sequence, starting from the empty cache, is exactly the value of the last
notification whose id resolved to P, carrying that notification's receipt
tick as its isoformat timestamp, and is absent when no notification ever
matched P; moreover a delivery whose id matches no configured point leaves
the cache unchanged and dispatches nothing. -/
theorem cache_is_last_matched_notification {V : Type} (points : List MonitoredPoint)
    (P : MonitoredPoint) (hnd : (points.map MonitoredPoint.name).Nodup)
    (hP : P ∈ points) (ns : List (Notification V)) :
    ((processNotifications points (Cache.empty V) ns).1 P.name =
        (lastMatchFor points P ns).map
          (fun m => ⟨m.val, P.unit, TimeVal.iso m.time⟩)) ∧
    ∀ (c : Cache V) (n : Notification V), findPoint points n.nodeId = none →
      datachange_notification points c n = (c, []) := by
  constructor
  · rw [processNotifications_lookup points P hnd hP ns]
    cases lastMatchFor (V := V) points P ns <;> rfl
  · intro c n hf
    simp [datachange_notification, hf]

/-- Witness for C1 on the three-point scenario of the spec: A receives 21
then 22, B receives 60, one delivery has an unknown id; the cache ends with
A holding 22 stamped at tick 3. -/
theorem cache_is_last_matched_notification_witness :
    ((exPoints.map MonitoredPoint.name).Nodup ∧ exA ∈ exPoints) ∧
      (processNotifications exPoints (Cache.empty Nat) exNs).1 exA.name =
        (lastMatchFor exPoints exA exNs).map
          (fun m => ⟨m.val, exA.unit, TimeVal.iso m.time⟩) :=
  ⟨⟨by decide, by decide⟩,
    (cache_is_last_matched_notification exPoints exA (by decide) (by decide) exNs).1⟩

/-- C9: seeding a point P from a successful initial read is the same cache
write and the same dispatched argument tuple as a live notification for P's
id carrying the same value at the same tick. -/
theorem seeding_equals_live_notification {V : Type} (points : List MonitoredPoint)
    (P : MonitoredPoint) (c : Cache V) (v : V) (t : Nat)
    (hfind : findPoint points P.id = some P) :
    datachange_notification points c ⟨P.id, v, t⟩ =
      ((seedInitialValue P v t c).1, [(seedInitialValue P v t c).2]) := by
  simp [datachange_notification, hfind, seedInitialValue]

/-- Witness for C9 at point A of the fixture configuration. -/
theorem seeding_equals_live_notification_witness :
    findPoint exPoints exA.id = some exA ∧
      datachange_notification exPoints (Cache.empty Nat) ⟨exA.id, 21, 1⟩ =
        ((seedInitialValue exA 21 1 (Cache.empty Nat)).1,
          [(seedInitialValue exA 21 1 (Cache.empty Nat)).2]) :=
  ⟨by decide,
    seeding_equals_live_notification exPoints exA (Cache.empty Nat) 21 1 (by decide)⟩

/-- The client-closing call mutates no connector state, so catching its
exception returns the same state. -/
lemma catchE_closeClient {V : Type} (f : FailSpec) (s : EngineState V) :
    catchE (closeClientBody f s) = s := by
  unfold catchE closeClientBody
  by_cases h : f.clientDisconnectFails <;> simp [h]

/-- Explicit form of the subscription-cleanup block of disconnect. -/
lemma afterCleanup_char {V : Type} (f : FailSpec) (s : EngineState V) :
    afterCleanup f s =
      if s.subscription.isSome then
        (if s.handles.any f.unsubFails then s
         else if f.deleteFails then { s with handles := ([] : List Nat) }
         else { s with handles := ([] : List Nat), subscription := none })
      else s := by
  unfold afterCleanup catchE cleanupSubscriptionBody
  by_cases hs : s.subscription.isSome <;>
    by_cases ha : s.handles.any f.unsubFails <;>
      by_cases hd : f.deleteFails <;> simp [hs, ha, hd]

/-- The subscription-cleanup block never touches the client field. -/
lemma afterCleanup_client {V : Type} (f : FailSpec) (s : EngineState V) :
    (afterCleanup f s).client = s.client := by
  rw [afterCleanup_char]
  by_cases hs : s.subscription.isSome <;>
    by_cases ha : s.handles.any f.unsubFails <;>
      by_cases hd : f.deleteFails <;> simp [hs, ha, hd]

/-- The subscription-cleanup block never touches the connected flag. -/
lemma afterCleanup_connected {V : Type} (f : FailSpec) (s : EngineState V) :
    (afterCleanup f s).connected = s.connected := by
  rw [afterCleanup_char]
  by_cases hs : s.subscription.isSome <;>
    by_cases ha : s.handles.any f.unsubFails <;>
      by_cases hd : f.deleteFails <;> simp [hs, ha, hd]

/-- Explicit form of disconnect: the cleanup block, then the unconditional
finally clause of the client block when a client is present. -/
lemma disconnect_char {V : Type} (f : FailSpec) (s : EngineState V) :
    disconnect f s =
      if (afterCleanup f s).client.isSome then
        { afterCleanup f s with client := none, connected := false }
      else afterCleanup f s := by
  unfold disconnect
  simp only [catchE_closeClient]

/-- After disconnect the session handle is always cleared. -/
lemma disconnect_client_none {V : Type} (f : FailSpec) (s : EngineState V) :
    (disconnect f s).client = none := by
  rw [disconnect_char]
  cases hcl : (afterCleanup f s).client with
  | none => simp [hcl]
  | some u => simp [hcl]

/-- After disconnect the connected flag is false, provided the flag was only
set while a client existed. -/
lemma disconnect_connected_false {V : Type} (f : FailSpec) (s : EngineState V)
    (hc : s.client = none → s.connected = false) :
    (disconnect f s).connected = false := by
  rw [disconnect_char]
  cases hcl : (afterCleanup f s).client with
  | some u => simp [hcl]
  | none =>
      simp only [hcl, Option.isSome_none, Bool.false_eq_true, if_false]
      rw [afterCleanup_connected]
      exact hc (by rw [← afterCleanup_client f s, hcl])

/-- Disconnect preserves the subscription and handle fields produced by the
cleanup block: the client block only clears client and connected. -/
lemma disconnect_sub_handles {V : Type} (f : FailSpec) (s : EngineState V) :
    (disconnect f s).subscription = (afterCleanup f s).subscription ∧
      (disconnect f s).handles = (afterCleanup f s).handles := by
  rw [disconnect_char]
  cases hcl : (afterCleanup f s).client with
  | none => simp [hcl]
  | some u => simp [hcl]

/-- C2 counterexample: on an engine with an active subscription and one
monitored-item handle whose unsubscription raises, disconnect swallows the
error but returns with the subscription handle and the monitored-item
handle still in place, contradicting the claim that they are cleared even
if unsubscribing raised partway through. -/
theorem disconnect_counterexample :
    (disconnect exUnsubFail exActiveState).subscription = some () ∧
      (disconnect exUnsubFail exActiveState).handles = [0] ∧
      ¬((disconnect exUnsubFail exActiveState).subscription = none ∧
          (disconnect exUnsubFail exActiveState).handles = []) := by
  decide

/-- C2 (amended): disconnect never raises (every exception of its cleanup
steps is caught; the embedding is a total function) and is safe to call
twice in a row or before any connect.  Afterwards the session handle is
always cleared and the connected flag is false, given the engine invariant
that the flag is only set while a session handle exists.  The subscription
handle and the monitored-item handles are cleared when no cleanup step
raises (and stay cleared when there was no subscription); if unsubscribing
a handle raises, both are left unchanged, and if deleting the subscription
raises, the handles are cleared but the subscription handle is left in
place. -/
theorem disconnect_amended {V : Type} (f : FailSpec) (s : EngineState V)
    (hc : s.client = none → s.connected = false) :
    (disconnect f s).client = none ∧
    (disconnect f s).connected = false ∧
    (s.subscription = none →
      (disconnect f s).subscription = none ∧ (disconnect f s).handles = s.handles) ∧
    (s.subscription.isSome = true → s.handles.any f.unsubFails = false →
      f.deleteFails = false →
      (disconnect f s).subscription = none ∧ (disconnect f s).handles = []) ∧
    (s.subscription.isSome = true → s.handles.any f.unsubFails = true →
      (disconnect f s).subscription = s.subscription ∧
        (disconnect f s).handles = s.handles) ∧
    (s.subscription.isSome = true → s.handles.any f.unsubFails = false →
      f.deleteFails = true →
      (disconnect f s).subscription = s.subscription ∧
        (disconnect f s).handles = []) := by
  refine ⟨disconnect_client_none f s, disconnect_connected_false f s hc, ?_, ?_, ?_, ?_⟩
  · intro h
    rw [(disconnect_sub_handles f s).1, (disconnect_sub_handles f s).2,
      afterCleanup_char]
    simp [h]
  · intro hs ha hd
    rw [(disconnect_sub_handles f s).1, (disconnect_sub_handles f s).2,
      afterCleanup_char]
    simp [hs, ha, hd]
  · intro hs ha
    rw [(disconnect_sub_handles f s).1, (disconnect_sub_handles f s).2,
      afterCleanup_char]
    simp [hs, ha]
  · intro hs ha hd
    rw [(disconnect_sub_handles f s).1, (disconnect_sub_handles f s).2,
      afterCleanup_char]
    simp [hs, ha, hd]

/-- Witness for the amended C2 on an active engine with no cleanup failure:
disconnect returns a fully cleared state. -/
theorem disconnect_amended_witness :
    (exActiveState.client = none → exActiveState.connected = false) ∧
      ((disconnect exNoFail exActiveState).client = none ∧
      (disconnect exNoFail exActiveState).connected = false ∧
      (exActiveState.subscription = none →
        (disconnect exNoFail exActiveState).subscription = none ∧
          (disconnect exNoFail exActiveState).handles = exActiveState.handles) ∧
      (exActiveState.subscription.isSome = true →
        exActiveState.handles.any exNoFail.unsubFails = false →
        exNoFail.deleteFails = false →
        (disconnect exNoFail exActiveState).subscription = none ∧
          (disconnect exNoFail exActiveState).handles = []) ∧
      (exActiveState.subscription.isSome = true →
        exActiveState.handles.any exNoFail.unsubFails = true →
        (disconnect exNoFail exActiveState).subscription = exActiveState.subscription ∧
          (disconnect exNoFail exActiveState).handles = exActiveState.handles) ∧
      (exActiveState.subscription.isSome = true →
        exActiveState.handles.any exNoFail.unsubFails = false →
        exNoFail.deleteFails = true →
        (disconnect exNoFail exActiveState).subscription = exActiveState.subscription ∧
          (disconnect exNoFail exActiveState).handles = [])) :=
  ⟨by decide, disconnect_amended exNoFail exActiveState (by decide)⟩

/-- Explicit form of one iteration of the per-node subscription loop. -/
lemma subscribeStep_char {V : Type} (o : SubOracle V) (st : EngineState V)
    (ds : List (Dispatch V)) (p : MonitoredPoint) :
    subscribeStep o (st, ds) p =
      if o.itemFails p.id = true then (st, ds)
      else
        match o.readValue p.id with
        | none => ({ st with handles := st.handles ++ [o.handleOf p.id] }, ds)
        | some v =>
            ({ st with
                handles := st.handles ++ [o.handleOf p.id]
                latest_values :=
                  Cache.set st.latest_values p.name ⟨v, p.unit, TimeVal.iso o.time⟩ },
              ds ++ [⟨p.name, v, p.unit, TimeVal.raw o.time⟩]) := by
  unfold subscribeStep seedInitialValue
  by_cases hi : o.itemFails p.id = true
  · simp [hi]
  · cases hv : o.readValue p.id <;> simp [hi, hv]

/-- The per-node subscription loop never writes a cache key that is not the
name of one of the iterated points. -/
lemma subscribeFold_lookup_notmem {V : Type} (o : SubOracle V) (P : MonitoredPoint) :
    ∀ (pts : List MonitoredPoint) (st : EngineState V) (ds : List (Dispatch V)),
      P.name ∉ pts.map MonitoredPoint.name →
      ((pts.foldl (subscribeStep o) (st, ds)).1).latest_values P.name =
        st.latest_values P.name := by
  intro pts
  induction pts with
  | nil => intro st ds _; rfl
  | cons p pts ih =>
      intro st ds hnot
      rw [List.map_cons, List.mem_cons] at hnot
      push_neg at hnot
      obtain ⟨hne, hnmem⟩ := hnot
      rw [List.foldl_cons, subscribeStep_char]
      by_cases hi : o.itemFails p.id = true
      · rw [if_pos hi]
        exact ih st ds hnmem
      · rw [if_neg hi]
        cases hv : o.readValue p.id with
        | none =>
            simp only [hv]
            exact ih _ ds hnmem
        | some v =>
            simp only [hv]
            rw [ih _ _ hnmem]
            simp [Cache.set, hne]

/-- Lookup of P's cache entry after the per-node subscription loop, when the
configured names are distinct: P's own iteration alone decides it. -/
lemma subscribeFold_lookup {V : Type} (o : SubOracle V) (P : MonitoredPoint) :
    ∀ (pts : List MonitoredPoint) (st : EngineState V) (ds : List (Dispatch V)),
      (pts.map MonitoredPoint.name).Nodup → P ∈ pts →
      ((pts.foldl (subscribeStep o) (st, ds)).1).latest_values P.name =
        (if o.itemFails P.id = true then st.latest_values P.name
         else
           match o.readValue P.id with
           | some v => some ⟨v, P.unit, TimeVal.iso o.time⟩
           | none => st.latest_values P.name) := by
  intro pts
  induction pts with
  | nil => intro st ds _ hP; exact absurd hP (List.not_mem_nil P)
  | cons p pts ih =>
      intro st ds hnd hP
      rw [List.map_cons, List.nodup_cons] at hnd
      obtain ⟨hhead, htail⟩ := hnd
      rw [List.foldl_cons, subscribeStep_char]
      rcases List.mem_cons.mp hP with hPp | hPmem
      · subst hPp
        by_cases hi : o.itemFails P.id = true
        · rw [if_pos hi, subscribeFold_lookup_notmem o P pts st ds hhead, if_pos hi]
        · rw [if_neg hi]
          cases hv : o.readValue P.id with
          | none =>
              simp only [hv]
              rw [subscribeFold_lookup_notmem o P pts _ ds hhead]
              simp [hi, hv]
          | some v =>
              simp only [hv]
              rw [subscribeFold_lookup_notmem o P pts _ _ hhead]
              simp [hi, hv, Cache.set]
      · have hpq : ¬ P.name = p.name := by
          intro h
          exact hhead (h ▸ List.mem_map_of_mem MonitoredPoint.name hPmem)
        by_cases hi : o.itemFails p.id = true
        · rw [if_pos hi]
          exact ih st ds htail hPmem
        · rw [if_neg hi]
          cases hv : o.readValue p.id with
          | none =>
              simp only [hv]
              exact ih _ ds htail hPmem
          | some v =>
              simp only [hv]
              rw [ih _ _ htail hPmem]
              by_cases hPi : o.itemFails P.id = true
              · simp [hPi, Cache.set, hpq]
              · cases hPv : o.readValue P.id <;> simp [hPi, hPv, Cache.set, hpq]

/-- Handles accumulated by the per-node subscription loop: one per point
whose monitored-item creation succeeded, in order. -/
lemma subscribeFold_handles {V : Type} (o : SubOracle V) :
    ∀ (pts : List MonitoredPoint) (st : EngineState V) (ds : List (Dispatch V)),
      ((pts.foldl (subscribeStep o) (st, ds)).1).handles =
        st.handles ++
          (pts.filter fun p => !o.itemFails p.id).map fun p => o.handleOf p.id := by
  intro pts
  induction pts with
  | nil => intro st ds; simp
  | cons p pts ih =>
      intro st ds
      rw [List.foldl_cons, subscribeStep_char]
      by_cases hi : o.itemFails p.id = true
      · rw [if_pos hi, ih st ds]
        simp [List.filter_cons, hi]
      · rw [if_neg hi]
        have hfil :
            ((p :: pts).filter fun q => !o.itemFails q.id) =
              p :: (pts.filter fun q => !o.itemFails q.id) := by
          simp [List.filter_cons, hi]
        cases hv : o.readValue p.id with
        | none =>
            simp only [hv]
            rw [ih _ ds, hfil]
            simp
        | some v =>
            simp only [hv]
            rw [ih _ _, hfil]
            simp

/-- C3: when connected, with the subscription created, a point whose
monitored-item creation fails is logged and skipped: every other point is
still subscribed (its handle collected in order) and, if its initial read
succeeds, seeded in the cache; the failed point stays absent from the
(initially empty) cache; and subscribe_to_nodes still returns True. -/
theorem subscribe_partial_success {V : Type} (o : SubOracle V) (s : EngineState V)
    (hconn : s.connected = true) (hcl : s.client = some ())
    (hcs : o.createSubFails = false)
    (hnd : (s.nodes_to_monitor.map MonitoredPoint.name).Nodup)
    (hemp : ∀ k, s.latest_values k = none) :
    (subscribe_to_nodes o s).success = true ∧
    ((subscribe_to_nodes o s).state.handles =
      (s.nodes_to_monitor.filter fun p => !o.itemFails p.id).map
        fun p => o.handleOf p.id) ∧
    ∀ P ∈ s.nodes_to_monitor,
      (subscribe_to_nodes o s).state.latest_values P.name =
        if o.itemFails P.id = true then none
        else (o.readValue P.id).map fun v => ⟨v, P.unit, TimeVal.iso o.time⟩ := by
  have hguard : (!s.connected || s.client.isNone) = false := by
    rw [hconn, hcl]
    rfl
  have hsub : subscribe_to_nodes o s =
      ⟨(s.nodes_to_monitor.foldl (subscribeStep o)
          ({ s with subscription := some (), handles := [] }, [])).1, true,
        (s.nodes_to_monitor.foldl (subscribeStep o)
          ({ s with subscription := some (), handles := [] }, [])).2⟩ := by
    unfold subscribe_to_nodes
    rw [hguard, hcs]
    simp
  rw [hsub]
  refine ⟨rfl, ?_, ?_⟩
  · rw [subscribeFold_handles o s.nodes_to_monitor _ []]
    simp
  · intro P hPmem
    rw [subscribeFold_lookup o P s.nodes_to_monitor _ [] hnd hPmem]
    by_cases hi : o.itemFails P.id = true
    · simp [hi, hemp]
    · cases hv : o.readValue P.id with
      | none => simp [hi, hv, hemp]
      | some v => simp [hi, hv]

/-- Witness for C3: three points A, B, C where only B's monitored item
fails; A and C are subscribed and seeded, B is absent, success is returned. -/
theorem subscribe_partial_success_witness :
    (exConnectedState.connected = true ∧ exConnectedState.client = some () ∧
        exSubOracle.createSubFails = false ∧
        (exConnectedState.nodes_to_monitor.map MonitoredPoint.name).Nodup) ∧
      ((subscribe_to_nodes exSubOracle exConnectedState).success = true ∧
      ((subscribe_to_nodes exSubOracle exConnectedState).state.handles =
        (exConnectedState.nodes_to_monitor.filter
            fun p => !exSubOracle.itemFails p.id).map
          fun p => exSubOracle.handleOf p.id) ∧
      ∀ P ∈ exConnectedState.nodes_to_monitor,
        (subscribe_to_nodes exSubOracle exConnectedState).state.latest_values P.name =
          if exSubOracle.itemFails P.id = true then none
          else (exSubOracle.readValue P.id).map
            fun v => ⟨v, P.unit, TimeVal.iso exSubOracle.time⟩) := by
  refine ⟨⟨rfl, rfl, rfl, by decide⟩, ?_⟩
  exact subscribe_partial_success exSubOracle exConnectedState rfl rfl rfl (by decide)
    (fun _ => rfl)

/-- Every registered callback receives the same argument tuple, in
registration order, whatever any callback's raising behaviour is: the
delivered arguments of the callback loop are one copy of the tuple per
sink. -/
lemma runSinks_map_fst {V : Type} (a : Dispatch V) :
    ∀ sinks : List (Sink V),
      (runSinks a sinks).map Prod.fst = List.replicate sinks.length a := by
  intro sinks
  induction sinks with
  | nil => rfl
  | cons cb rest ih =>
      simp only [runSinks, List.map_cons, List.length_cons, List.replicate_succ, ih]

/-- C4: for every dispatched value change the registered sinks are invoked
in registration order, each receiving the same argument tuple; a raising
sink is caught inside the loop, so it neither prevents any later sink from
being invoked nor propagates (the loop is total); and over a whole window of
dispatches, the deliveries received by the sinks are the same whatever the
raising behaviour of any sink is — in particular a sink raising on every
invocation changes nothing in what the others receive. -/
theorem sink_isolation {V : Type} (sinks sinks2 : List (Sink V))
    (hlen : sinks.length = sinks2.length) (events : List (NotifyEvent V)) :
    (∀ e ∈ events,
      (notify_callbacks sinks e.name e.value e.unit e.time).map Prod.fst =
        List.replicate sinks.length ⟨e.name, e.value, e.unit, TimeVal.raw e.time⟩) ∧
    (dispatchWindow sinks events).map (List.map Prod.fst) =
      (dispatchWindow sinks2 events).map (List.map Prod.fst) := by
  constructor
  · intro e _
    exact runSinks_map_fst _ sinks
  · unfold dispatchWindow
    rw [List.map_map, List.map_map]
    apply List.map_congr_left
    intro e _
    simp only [Function.comp_apply, notify_callbacks, runSinks_map_fst, hlen]

/-- Witness for C4: a sink that raises on every invocation next to a normal
sink; both receive both events of the window. -/
theorem sink_isolation_witness :
    exSinksA.length = exSinksB.length ∧
      ((∀ e ∈ exEvents,
        (notify_callbacks exSinksA e.name e.value e.unit e.time).map Prod.fst =
          List.replicate exSinksA.length
            ⟨e.name, e.value, e.unit, TimeVal.raw e.time⟩) ∧
      (dispatchWindow exSinksA exEvents).map (List.map Prod.fst) =
        (dispatchWindow exSinksB exEvents).map (List.map Prod.fst)) :=
  ⟨rfl, sink_isolation exSinksA exSinksB rfl exEvents⟩

/-- C5: credential provisioning is idempotent.  When both files exist their
paths are returned with the disk untouched; and after any successful call
(whichever path it took), a second call — under any behaviour of the
generation oracle — returns the same two paths and leaves the files
unchanged. -/
theorem credential_provisioning_idempotent (o o2 : CryptoOracle) (d : Disk) :
    (d.certFile.isSome = true → d.keyFile.isSome = true →
      generate_certificates o d = Except.ok (d, certPath, keyPath)) ∧
    ∀ d1 p q, generate_certificates o d = Except.ok (d1, p, q) →
      p = certPath ∧ q = keyPath ∧
        generate_certificates o2 d1 = Except.ok (d1, p, q) := by
  constructor
  · intro h1 h2
    simp [generate_certificates, h1, h2]
  · intro d1 p q h
    unfold generate_certificates at h
    by_cases hb : (d.certFile.isSome && d.keyFile.isSome) = true
    · rw [if_pos hb] at h
      simp only [Except.ok.injEq, Prod.mk.injEq] at h
      obtain ⟨rfl, rfl, rfl⟩ := h
      refine ⟨rfl, rfl, ?_⟩
      unfold generate_certificates
      rw [if_pos hb]
    · rw [if_neg hb] at h
      by_cases hg : o.genFails = true
      · rw [if_pos hg] at h
        exact absurd h (by simp)
      · rw [if_neg hg] at h
        simp only [Except.ok.injEq, Prod.mk.injEq] at h
        obtain ⟨rfl, rfl, rfl⟩ := h
        refine ⟨rfl, rfl, ?_⟩
        simp [generate_certificates]

/-- Witness for C5: both files already on disk; provisioning returns their
paths with the disk untouched. -/
theorem credential_provisioning_idempotent_witness :
    (exDiskBoth.certFile.isSome = true ∧ exDiskBoth.keyFile.isSome = true) ∧
      generate_certificates exCrypto exDiskBoth =
        Except.ok (exDiskBoth, certPath, keyPath) :=
  ⟨⟨rfl, rfl⟩,
    (credential_provisioning_idempotent exCrypto exCryptoFail exDiskBoth).1 rfl rfl⟩

/-- C6: when the credential files are not both present and the generation
path fails, generate_certificates re-raises the failure to its caller (a
ProvisioningError in the spec's taxonomy), and connect — whose except clause
catches it — never reaches the session-opening client.connect() call and
reports failure. -/
theorem provisioning_failure_fatal {V : Type} (o : ConnectOracle) (cleanup : FailSpec)
    (d : Disk) (s : EngineState V)
    (hmiss : (d.certFile.isSome && d.keyFile.isSome) = false)
    (hfail : o.crypto.genFails = true) :
    generate_certificates o.crypto d = Except.error () ∧
    (connect o cleanup d s).sessionAttempted = false ∧
    (connect o cleanup d s).success = false := by
  have hg : generate_certificates o.crypto d = Except.error () := by
    unfold generate_certificates
    rw [if_neg (by rw [hmiss]; exact Bool.false_ne_true), if_pos hfail]
  refine ⟨hg, ?_, ?_⟩ <;>
    · unfold connect
      rw [hg]

/-- Witness for C6: empty disk and failing generation. -/
theorem provisioning_failure_fatal_witness :
    ((exDiskEmpty.certFile.isSome && exDiskEmpty.keyFile.isSome) = false ∧
        exConnectOracleFail.crypto.genFails = true) ∧
      (generate_certificates exConnectOracleFail.crypto exDiskEmpty = Except.error () ∧
      (connect exConnectOracleFail exNoFail exDiskEmpty exFreshState).sessionAttempted =
        false ∧
      (connect exConnectOracleFail exNoFail exDiskEmpty exFreshState).success = false) :=
  ⟨⟨rfl, rfl⟩,
    provisioning_failure_fatal exConnectOracleFail exNoFail exDiskEmpty exFreshState
      rfl rfl⟩

/-- Reduction of connect when provisioning raised. -/
lemma connect_char_error {V : Type} (o : ConnectOracle) (cleanup : FailSpec) (d : Disk)
    (s : EngineState V) (u : Unit)
    (hg : generate_certificates o.crypto d = Except.error u) :
    connect o cleanup d s = ⟨disconnect cleanup s, d, false, false⟩ := by
  unfold connect
  rw [hg]

/-- Reduction of connect once provisioning returned the two paths. -/
lemma connect_char_ok {V : Type} (o : ConnectOracle) (cleanup : FailSpec) (d : Disk)
    (s : EngineState V) (d1 : Disk) (cp kp : String)
    (hg : generate_certificates o.crypto d = Except.ok (d1, cp, kp)) :
    connect o cleanup d s =
      (if o.clientCtorFails then ⟨disconnect cleanup s, d1, false, false⟩
       else if o.setSecurityFails then
         ⟨disconnect cleanup { s with client := some () }, d1, false, false⟩
       else if o.sessionOpenFails then
         ⟨disconnect cleanup { s with client := some () }, d1, false, true⟩
       else ⟨{ s with client := some (), connected := true }, d1, true, true⟩) := by
  unfold connect
  rw [hg]

/-- C7: whichever step of connect fails — provisioning, client construction,
security setup, or session establishment — connect returns False and leaves
no partial resources: the session handle is cleared and the connected flag
is false (its except clause runs self.disconnect()), so connect can be
retried. -/
theorem connect_failure_leaves_clean {V : Type} (o : ConnectOracle) (cleanup : FailSpec)
    (d : Disk) (s : EngineState V)
    (hc : s.client = none → s.connected = false)
    (hf : connectStepFails o d) :
    (connect o cleanup d s).success = false ∧
    (connect o cleanup d s).state.client = none ∧
    (connect o cleanup d s).state.connected = false := by
  cases hg : generate_certificates o.crypto d with
  | error u =>
      rw [connect_char_error o cleanup d s u hg]
      exact ⟨rfl, disconnect_client_none cleanup s,
        disconnect_connected_false cleanup s hc⟩
  | ok res =>
      obtain ⟨d1, cp, kp⟩ := res
      rw [connect_char_ok o cleanup d s d1 cp kp hg]
      by_cases h1 : o.clientCtorFails = true
      · rw [if_pos h1]
        exact ⟨rfl, disconnect_client_none cleanup s,
          disconnect_connected_false cleanup s hc⟩
      · rw [if_neg h1]
        by_cases h2 : o.setSecurityFails = true
        · rw [if_pos h2]
          refine ⟨rfl, disconnect_client_none cleanup _,
            disconnect_connected_false cleanup _ ?_⟩
          intro hcl
          simp at hcl
        · rw [if_neg h2]
          by_cases h3 : o.sessionOpenFails = true
          · rw [if_pos h3]
            refine ⟨rfl, disconnect_client_none cleanup _,
              disconnect_connected_false cleanup _ ?_⟩
            intro hcl
            simp at hcl
          · exfalso
            rcases hf with ⟨hm, hgen⟩ | hcc | hss | hso
            · rw [generate_certificates,
                if_neg (by rw [hm]; exact Bool.false_ne_true), if_pos hgen] at hg
              exact Except.noConfusion hg
            · exact h1 hcc
            · exact h2 hss
            · exact h3 hso

/-- Witness for C7: a provisioning failure on an empty disk from a fresh
engine; connect reports failure with client cleared and the flag down. -/
theorem connect_failure_leaves_clean_witness :
    ((exFreshState.client = none → exFreshState.connected = false) ∧
        connectStepFails exConnectOracleFail exDiskEmpty) ∧
      ((connect exConnectOracleFail exNoFail exDiskEmpty exFreshState).success = false ∧
      (connect exConnectOracleFail exNoFail exDiskEmpty exFreshState).state.client =
        none ∧
      (connect exConnectOracleFail exNoFail exDiskEmpty exFreshState).state.connected =
        false) :=
  ⟨⟨by decide, Or.inl ⟨rfl, rfl⟩⟩,
    connect_failure_leaves_clean exConnectOracleFail exNoFail exDiskEmpty exFreshState
      (by decide) (Or.inl ⟨rfl, rfl⟩)⟩

/-- The publish loop over a window is one full-snapshot batch per cycle,
cycle j publishing the sink map's contents at cycle j; there are T / I + 1
cycles in a window of T ticks (one per elapsed sleep interval, plus the
batch published on entry). -/
lemma publish_loop_eq {V : Type} (pfx : String)
    (env : Nat → List (String × ValueRecord V)) (I : Nat) (hI : 0 < I) :
    ∀ T k, publish_loop pfx true env I k T =
      (List.range (T / I + 1)).map (fun j => publish_values pfx (env (k + j))) := by
  intro T
  induction T using Nat.strong_induction_on with
  | _ T ih =>
      intro k
      rw [publish_loop]
      by_cases hT : I ≤ T
      · have hr : (List.range ((T - I) / I + 1 + 1)).map
              (fun j => publish_values pfx (env (k + j))) =
            publish_values pfx (env k) ::
              (List.range ((T - I) / I + 1)).map
                (fun j => publish_values pfx (env (k + 1 + j))) := by
          rw [List.range_succ_eq_map]
          simp only [List.map_cons, List.map_map, Nat.add_zero]
          congr 1
          apply List.map_congr_left
          intro j _
          simp only [Function.comp_apply, Nat.succ_eq_add_one]
          have h2 : k + (j + 1) = k + 1 + j := by omega
          rw [h2]
        rw [dif_pos ⟨hI, hT⟩, ih (T - I) (by omega) (k + 1),
          Nat.div_eq_sub_div hI hT, hr]
        simp
      · rw [dif_neg (by omega), Nat.div_eq_of_lt (by omega)]
        have h1 : List.range 1 = [0] := rfl
        rw [h1]
        simp

/-- C8: with the MQTT client connected and keep_running held, over a window
of T ticks at sleep interval I the publish loop completes T / I + 1 cycles —
at least floor(T/I) — and the batch of each cycle j republishes every entry
of the sink's local map as it stands at that cycle, one message per point,
with topic the configured prefix followed by the point name and the record
as payload, whether or not any value changed since the previous cycle. -/
theorem publish_loop_republishes_every_entry {V : Type} (pfx : String)
    (env : Nat → List (String × ValueRecord V)) (I T : Nat) (hI : 0 < I) :
    T / I ≤ (publish_loop pfx true env I 0 T).length ∧
    publish_loop pfx true env I 0 T =
      (List.range (T / I + 1)).map
        (fun j => (env j).map (fun e => ⟨pfx ++ e.1, e.2, 1⟩)) := by
  have h := publish_loop_eq pfx env I hI T 0
  simp only [Nat.zero_add] at h
  refine ⟨?_, ?_⟩
  · rw [h]
    simp
  · rw [h]
    rfl

/-- Witness for C8: one entry, interval 2, window 3: two cycles, each
republishing the single unchanged entry. -/
theorem publish_loop_republishes_every_entry_witness :
    0 < 2 ∧
      (3 / 2 ≤ (publish_loop "opcua/plc/" true exEnv 2 0 3).length ∧
      publish_loop "opcua/plc/" true exEnv 2 0 3 =
        (List.range (3 / 2 + 1)).map
          (fun j => (exEnv j).map (fun e => ⟨"opcua/plc/" ++ e.1, e.2, 1⟩))) :=
  ⟨by decide, publish_loop_republishes_every_entry "opcua/plc/" exEnv 2 3 (by decide)⟩

/-- Every point produced by the config parse comes from some node{i}_* group
of the config, with its unit defaulted to the empty string. -/
lemma parseNodes_mem (cfg : Nat → Option ConfigEntry) :
    ∀ (fuel i : Nat) (p : MonitoredPoint), p ∈ parseNodes cfg i fuel →
      ∃ j e, cfg j = some e ∧ p = ⟨e.id, e.name, e.unit.getD ""⟩ := by
  intro fuel
  induction fuel with
  | zero => intro i p hp; exact absurd hp (List.not_mem_nil p)
  | succ fuel ih =>
      intro i p
      rw [parseNodes]
      cases hc : cfg i with
      | none => intro hp; exact absurd hp (List.not_mem_nil p)
      | some e =>
          intro hp
          rcases List.mem_cons.mp hp with h | h
          · exact ⟨i, e, hc, h⟩
          · exact ih (i + 1) p h

/-- The cache invariant is preserved by the record write that both write
paths share: point name as key, point unit, isoformat timestamp. -/
lemma cacheInvCfg_set {V : Type} {cfg : Nat → Option ConfigEntry} {c : Cache V}
    (h : cacheInvCfg cfg c) {p : MonitoredPoint}
    (hp : ∃ j e, cfg j = some e ∧ p = ⟨e.id, e.name, e.unit.getD ""⟩)
    (v : V) (t : Nat) :
    cacheInvCfg cfg (Cache.set c p.name ⟨v, p.unit, TimeVal.iso t⟩) := by
  intro name r hr
  unfold Cache.set at hr
  by_cases hn : name = p.name
  · rw [if_pos hn] at hr
    obtain ⟨j, e, hj, rfl⟩ := hp
    obtain rfl := (Option.some.inj hr).symm
    exact ⟨⟨j, e, hj, hn.symm, rfl⟩, t, rfl⟩
  · rw [if_neg hn] at hr
    exact h name r hr

/-- The cache invariant is preserved by the notification handler. -/
lemma cacheInvCfg_notification {V : Type} {cfg : Nat → Option ConfigEntry}
    (points : List MonitoredPoint)
    (hpts : ∀ p ∈ points, ∃ j e, cfg j = some e ∧ p = ⟨e.id, e.name, e.unit.getD ""⟩)
    {c : Cache V} (h : cacheInvCfg cfg c) (n : Notification V) :
    cacheInvCfg cfg (datachange_notification points c n).1 := by
  unfold datachange_notification
  cases hf : findPoint points n.nodeId with
  | none => exact h
  | some p =>
      exact cacheInvCfg_set h (hpts p (List.mem_of_find?_eq_some hf)) n.val n.time

/-- The cache invariant is preserved over a whole notification sequence. -/
lemma cacheInvCfg_process {V : Type} {cfg : Nat → Option ConfigEntry}
    (points : List MonitoredPoint)
    (hpts : ∀ p ∈ points, ∃ j e, cfg j = some e ∧ p = ⟨e.id, e.name, e.unit.getD ""⟩) :
    ∀ (ns : List (Notification V)) (c : Cache V), cacheInvCfg cfg c →
      cacheInvCfg cfg (processNotifications points c ns).1 := by
  intro ns
  induction ns with
  | nil => intro c h; exact h
  | cons n ns ih =>
      intro c h
      exact ih _ (cacheInvCfg_notification points hpts h n)

/-- The cache invariant is preserved by the initial-read seeding loop. -/
lemma cacheInvCfg_subscribeFold {V : Type} {cfg : Nat → Option ConfigEntry}
    (o : SubOracle V) :
    ∀ (pts : List MonitoredPoint),
      (∀ p ∈ pts, ∃ j e, cfg j = some e ∧ p = ⟨e.id, e.name, e.unit.getD ""⟩) →
      ∀ (st : EngineState V) (ds : List (Dispatch V)),
        cacheInvCfg cfg st.latest_values →
        cacheInvCfg cfg ((pts.foldl (subscribeStep o) (st, ds)).1).latest_values := by
  intro pts
  induction pts with
  | nil => intro _ st ds h; exact h
  | cons p pts ih =>
      intro hpts st ds h
      rw [List.foldl_cons, subscribeStep_char]
      by_cases hi : o.itemFails p.id = true
      · rw [if_pos hi]
        exact ih (fun q hq => hpts q (List.mem_cons_of_mem p hq)) st ds h
      · rw [if_neg hi]
        cases hv : o.readValue p.id with
        | none =>
            simp only [hv]
            exact ih (fun q hq => hpts q (List.mem_cons_of_mem p hq)) _ ds h
        | some v =>
            simp only [hv]
            exact ih (fun q hq => hpts q (List.mem_cons_of_mem p hq)) _ _
              (cacheInvCfg_set h (hpts p (List.mem_cons_self p pts)) v o.time)

/-- The cache invariant is preserved by subscribe_to_nodes. -/
lemma cacheInvCfg_subscribe {V : Type} {cfg : Nat → Option ConfigEntry}
    (o : SubOracle V) (s : EngineState V)
    (hpts : ∀ p ∈ s.nodes_to_monitor,
      ∃ j e, cfg j = some e ∧ p = ⟨e.id, e.name, e.unit.getD ""⟩)
    (h : cacheInvCfg cfg s.latest_values) :
    cacheInvCfg cfg (subscribe_to_nodes o s).state.latest_values := by
  unfold subscribe_to_nodes
  by_cases hg : (!s.connected || s.client.isNone) = true
  · rw [if_pos hg]
    exact h
  · rw [if_neg hg]
    by_cases hcs : o.createSubFails = true
    · rw [if_pos hcs]
      exact h
    · rw [if_neg hcs]
      exact cacheInvCfg_subscribeFold o s.nodes_to_monitor hpts _ [] h

/-- C10: after the initial-read seeding path and any sequence of
notifications, every record of latest_values carries (beside its value)
exactly the configured unit of the config entry whose name is its key — the
empty string when no node{i}_unit key was configured — and an isoformat
timestamp string, never a raw datetime object.  (The record type itself has
exactly the three fields value, unit, timestamp.) -/
theorem cache_record_invariant {V : Type} (cfg : Nat → Option ConfigEntry) (fuel : Nat)
    (o : SubOracle V) (s : EngineState V) (ns : List (Notification V))
    (hpts : s.nodes_to_monitor = parseNodes cfg 1 fuel)
    (hinv : cacheInvCfg cfg s.latest_values) :
    cacheInvCfg cfg
      (processNotifications s.nodes_to_monitor
        (subscribe_to_nodes o s).state.latest_values ns).1 := by
  have hmem : ∀ p ∈ s.nodes_to_monitor,
      ∃ j e, cfg j = some e ∧ p = ⟨e.id, e.name, e.unit.getD ""⟩ := by
    intro p hp
    rw [hpts] at hp
    exact parseNodes_mem cfg fuel 1 p hp
  exact cacheInvCfg_process s.nodes_to_monitor hmem ns _
    (cacheInvCfg_subscribe o s hmem hinv)

/-- Witness for C10 on a one-point configuration parsed from the config
oracle, seeded and then fed the fixture notification sequence. -/
theorem cache_record_invariant_witness :
    exCfgState.nodes_to_monitor = parseNodes exCfg 1 3 ∧
      cacheInvCfg exCfg
        (processNotifications exCfgState.nodes_to_monitor
          (subscribe_to_nodes exSubOracle exCfgState).state.latest_values exNs).1 :=
  ⟨rfl, cache_record_invariant exCfg 3 exSubOracle exCfgState exNs rfl
    (fun _ _ hr => nomatch hr)⟩

end OpcGateway
